import Mathlib

/-!
Shallow embedding of the dyncom ARM interpreter core
(src/core/arm/dyncom/arm_dyncom_interpreter.cpp) and proofs about the
claims of the specification.  Machine words are `Nat` with explicit
`% 2 ^ 32` where the C++ u32 arithmetic can overflow.
-/

namespace Dyncom

/-- `BITS(x, a, b)`: bits `a`..`b` (inclusive) of `x`, as in the C++ macro. -/
def BITS (x a b : Nat) : Nat := (x >>> a) % 2 ^ (b - a + 1)

/-- `BIT(x, n)`: bit `n` of `x`, as in the C++ macro. -/
def BIT (x n : Nat) : Nat := (x >>> n) % 2

/-- `ROTATE_RIGHT_32(n, i)`, with the x86 behaviour of shift counts taken
mod 32 (the macro produces a shift by 32 when `i = 0`, which on the
compilers the source targets reduces to a no-op rotate). -/
def ROTATE_RIGHT_32 (n i : Nat) : Nat :=
  let j := i % 32
  ((n >>> j) ||| (n <<< (32 - j))) % 2 ^ 32

/-- Arithmetic shift right of a 32-bit value (`static_cast<int>(rm) >> k`),
for `k < 32`. -/
def ASR32 (rm k : Nat) : Nat :=
  if BIT rm 31 = 1 then (rm % 2 ^ 32 >>> k) ||| (2 ^ 32 - 2 ^ (32 - k))
  else rm % 2 ^ 32 >>> k

/-- 32-bit complement (`~x` on u32, for `x < 2 ^ 32`). -/
def compl32 (x : Nat) : Nat := 0xFFFFFFFF ^^^ x

/-- Modelled from the spec: mode constants of the CPU state block
(armstate.h is not under src/); standard ARM mode numbers. -/
def USER32MODE : Nat := 0x10

/-- Modelled from the spec: system mode constant (armstate.h not under src/). -/
def SYSTEM32MODE : Nat := 0x1F

/-- Flow bitset constants of the pre-decoded record header. -/
def NON_BRANCH : Nat := 1 <<< 1

def DIRECT_BRANCH : Nat := 1 <<< 2

def INDIRECT_BRANCH : Nat := 1 <<< 3

/-- The CPU state block (`ARMul_State`): register file, packed CPSR plus the
fast-path flag fields, SPSR shadow, exclusive monitor, guest memory (word
map, as served by the memory service), the instruction budget, the IRQ
line and a log of supervisor calls made through the external handler. -/
structure ARMulState where
  Reg : Nat → Nat
  Reg_usr0 : Nat
  Reg_usr1 : Nat
  Cpsr : Nat
  Spsr_copy : Nat
  Mode : Nat
  NFlag : Nat
  ZFlag : Nat
  CFlag : Nat
  VFlag : Nat
  TFlag : Nat
  shifter_carry_out : Nat
  exclusive_addr : Option Nat
  mem : Nat → Nat
  NumInstrsToExecute : Nat
  NirqSig : Bool
  svcCalls : List Nat

/-- Write one general-purpose register. -/
def setReg (s : ARMulState) (n v : Nat) : ARMulState :=
  { s with Reg := Function.update s.Reg n v }

/-- Modelled from the spec: `GetInstructionSize` of the CPU state block
(armstate.h not under src/): 2 in Thumb state, 4 in ARM state. -/
def GetInstructionSize (s : ARMulState) : Nat :=
  if s.TFlag = 0 then 4 else 2

/-- Modelled from the spec: `CHECK_READ_REG15_WA` (arm_dyncom_run.h not under
src/): a source-register read of R15 yields the word-aligned PC plus the
architectural pipeline offset (+8 ARM, +4 Thumb). -/
def CHECK_READ_REG15_WA (s : ARMulState) (n : Nat) : Nat :=
  if n = 15 then ((s.Reg 15 &&& 0xFFFFFFFC) + 2 * GetInstructionSize s) % 2 ^ 32
  else s.Reg n

/-- Modelled from the spec: `CHECK_READ_REG15` (arm_dyncom_run.h not under
src/): like `CHECK_READ_REG15_WA` with halfword alignment. -/
def CHECK_READ_REG15 (s : ARMulState) (n : Nat) : Nat :=
  if n = 15 then ((s.Reg 15 &&& 0xFFFFFFFE) + 2 * GetInstructionSize s) % 2 ^ 32
  else s.Reg n

/-- Modelled from the spec: `ReadMemory32` of the guest memory service. -/
def ReadMemory32 (s : ARMulState) (a : Nat) : Nat := s.mem a

/-- Modelled from the spec: `WriteMemory32` of the guest memory service. -/
def WriteMemory32 (s : ARMulState) (a v : Nat) : ARMulState :=
  { s with mem := Function.update s.mem a (v % 2 ^ 32) }

/-- Modelled from the spec: the exclusive monitor `set` operation of the CPU
state block (armstate not under src/): record the reserved guest address. -/
def SetExclusiveMemoryAddress (s : ARMulState) (a : Nat) : ARMulState :=
  { s with exclusive_addr := some a }

/-- Modelled from the spec: the exclusive monitor `unset` operation. -/
def UnsetExclusiveMemoryAddress (s : ARMulState) : ARMulState :=
  { s with exclusive_addr := none }

/-- Modelled from the spec: the exclusive monitor `check` operation: does the
monitor hold exactly this address? -/
def IsExclusiveMemoryAccess (s : ARMulState) (a : Nat) : Bool :=
  s.exclusive_addr = some a

/-- `CurrentModeHasSPSR` macro: every mode except user and system. -/
def CurrentModeHasSPSR (s : ARMulState) : Bool :=
  s.Mode ≠ SYSTEM32MODE && s.Mode ≠ USER32MODE

/-- Modelled from the spec: `InAPrivilegedMode` of the CPU state block. -/
def InAPrivilegedMode (s : ARMulState) : Bool := s.Mode ≠ USER32MODE

/-- Modelled from the spec: `ChangePrivilegeMode` of the CPU state block.
The banked-register swap it performs is abstracted away; only the mode
field switch is modelled. -/
def ChangePrivilegeMode (s : ARMulState) (m : Nat) : ARMulState :=
  { s with Mode := m }

/-- `LOAD_NZCVT`: refresh the fast-path flag fields from the packed CPSR. -/
def loadNZCVT (s : ARMulState) : ARMulState :=
  { s with
    NFlag := s.Cpsr >>> 31
    ZFlag := (s.Cpsr >>> 30) &&& 1
    CFlag := (s.Cpsr >>> 29) &&& 1
    VFlag := (s.Cpsr >>> 28) &&& 1
    TFlag := (s.Cpsr >>> 5) &&& 1 }

/-- `SAVE_NZCVT`: mirror the fast-path flag fields back into the packed CPSR. -/
def saveNZCVT (s : ARMulState) : ARMulState :=
  { s with Cpsr := (s.Cpsr &&& 0x0FFFFFDF) |||
      (s.NFlag <<< 31) ||| (s.ZFlag <<< 30) ||| (s.CFlag <<< 29) |||
      (s.VFlag <<< 28) ||| (s.TFlag <<< 5) }

/-- `CondPassed`: evaluate a 4-bit condition code against the NZCV flags. -/
def CondPassed (s : ARMulState) (cond : Nat) : Bool :=
  let N := s.NFlag ≠ 0
  let Z := s.ZFlag ≠ 0
  let C := s.CFlag ≠ 0
  let V := s.VFlag ≠ 0
  match cond with
  | 0x0 => Z
  | 0x1 => !Z
  | 0x2 => C
  | 0x3 => !C
  | 0x4 => N
  | 0x5 => !N
  | 0x6 => V
  | 0x7 => !V
  | 0x8 => C && !Z
  | 0x9 => !C || Z
  | 0xA => (!N && !V) || (N && V)
  | 0xB => (N && !V) || (!N && V)
  | 0xC => (!N && !V && !Z) || (N && V && !Z)
  | 0xD => ((N && !V) || (!N && V)) || Z
  | 0xE => true
  | 0xF => true
  | _ => false

/-! ## Shifter operand engine

Each `DPO(...)` function computes a 32-bit shifter operand plus a fresh
shifter carry-out.  The by-register variants are split into a core over
the fetched `rm`/`rs` values, exactly mirroring the C++ bodies after the
register reads. -/

/-- Core of `DPO(LogicalShiftLeftByRegister)` over the fetched values. -/
def lslByRegCore (cflag rm rs : Nat) : Nat × Nat :=
  if BITS rs 0 7 = 0 then (rm, cflag)
  else if BITS rs 0 7 < 32 then
    ((rm <<< BITS rs 0 7) % 2 ^ 32, BIT rm (32 - BITS rs 0 7))
  else if BITS rs 0 7 = 32 then (0, BIT rm 0)
  else (0, 0)

/-- Core of `DPO(LogicalShiftRightByRegister)` over the fetched values. -/
def lsrByRegCore (cflag rm rs : Nat) : Nat × Nat :=
  if BITS rs 0 7 = 0 then (rm, cflag)
  else if BITS rs 0 7 < 32 then
    (rm % 2 ^ 32 >>> BITS rs 0 7, BIT rm (BITS rs 0 7 - 1))
  else if BITS rs 0 7 = 32 then (0, BIT rm 31)
  else (0, 0)

/-- Core of `DPO(ArithmeticShiftRightByRegister)` over the fetched values. -/
def asrByRegCore (cflag rm rs : Nat) : Nat × Nat :=
  if BITS rs 0 7 = 0 then (rm, cflag)
  else if BITS rs 0 7 < 32 then
    (ASR32 rm (BITS rs 0 7), BIT rm (BITS rs 0 7 - 1))
  else if BIT rm 31 = 0 then (0, BIT rm 31)
  else (0xFFFFFFFF, BIT rm 31)

/-- Core of `DPO(RotateRightByRegister)` over the fetched values. -/
def rorByRegCore (cflag rm rs : Nat) : Nat × Nat :=
  if BITS rs 0 7 = 0 then (rm, cflag)
  else if BITS rs 0 4 = 0 then (rm, BIT rm 31)
  else (ROTATE_RIGHT_32 rm (BITS rs 0 4), BIT rm (BITS rs 0 4 - 1))

/-- The nine shifter-operand cases, the codomain of `get_shtop`. -/
inductive ShtopFunc where
  | immediate
  | register
  | lslImm
  | lslReg
  | lsrImm
  | lsrReg
  | asrImm
  | asrReg
  | rorImm
  | rorReg
deriving DecidableEq

/-- `get_shtop`: select the shifter-operand case from the raw instruction. -/
def get_shtop (inst : Nat) : Option ShtopFunc :=
  if BIT inst 25 = 1 then some .immediate
  else if BITS inst 4 11 = 0 then some .register
  else if BITS inst 4 6 = 0 then some .lslImm
  else if BITS inst 4 7 = 1 then some .lslReg
  else if BITS inst 4 6 = 2 then some .lsrImm
  else if BITS inst 4 7 = 3 then some .lsrReg
  else if BITS inst 4 6 = 4 then some .asrImm
  else if BITS inst 4 7 = 5 then some .asrReg
  else if BITS inst 4 6 = 6 then some .rorImm
  else if BITS inst 4 7 = 7 then some .rorReg
  else none

/-- Dispatch a shifter-operand computation: returns the operand value and
the fresh shifter carry-out.  Register reads go through
`CHECK_READ_REG15` as in the source. -/
def shtop (f : ShtopFunc) (s : ARMulState) (sht_oper : Nat) : Nat × Nat :=
  match f with
  | .immediate =>
      let immed_8 := BITS sht_oper 0 7
      let rotate_imm := BITS sht_oper 8 11
      let shifter_operand := ROTATE_RIGHT_32 immed_8 (rotate_imm * 2)
      if rotate_imm = 0 then (shifter_operand, s.CFlag)
      else (shifter_operand, BIT shifter_operand 31)
  | .register =>
      (CHECK_READ_REG15 s (BITS sht_oper 0 3), s.CFlag)
  | .lslImm =>
      let shift_imm := BITS sht_oper 7 11
      let rm := CHECK_READ_REG15 s (BITS sht_oper 0 3)
      if shift_imm = 0 then (rm, s.CFlag)
      else ((rm <<< shift_imm) % 2 ^ 32, BIT rm (32 - shift_imm))
  | .lslReg =>
      lslByRegCore s.CFlag (CHECK_READ_REG15 s (BITS sht_oper 0 3))
        (CHECK_READ_REG15 s (BITS sht_oper 8 11))
  | .lsrImm =>
      let rm := CHECK_READ_REG15 s (BITS sht_oper 0 3)
      let shift_imm := BITS sht_oper 7 11
      if shift_imm = 0 then (0, BIT rm 31)
      else (rm % 2 ^ 32 >>> shift_imm, BIT rm (shift_imm - 1))
  | .lsrReg =>
      lsrByRegCore s.CFlag (CHECK_READ_REG15 s (BITS sht_oper 0 3))
        (CHECK_READ_REG15 s (BITS sht_oper 8 11))
  | .asrImm =>
      let rm := CHECK_READ_REG15 s (BITS sht_oper 0 3)
      let shift_imm := BITS sht_oper 7 11
      if shift_imm = 0 then
        (if BIT rm 31 = 0 then 0 else 0xFFFFFFFF, BIT rm 31)
      else (ASR32 rm shift_imm, BIT rm (shift_imm - 1))
  | .asrReg =>
      asrByRegCore s.CFlag (CHECK_READ_REG15 s (BITS sht_oper 0 3))
        (CHECK_READ_REG15 s (BITS sht_oper 8 11))
  | .rorImm =>
      let rm := CHECK_READ_REG15 s (BITS sht_oper 0 3)
      let shift_imm := BITS sht_oper 7 11
      if shift_imm = 0 then
        (((s.CFlag <<< 31) ||| (rm % 2 ^ 32 >>> 1)) % 2 ^ 32, BIT rm 0)
      else (ROTATE_RIGHT_32 rm shift_imm, BIT rm (shift_imm - 1))
  | .rorReg =>
      rorByRegCore s.CFlag (CHECK_READ_REG15 s (BITS sht_oper 0 3))
        (CHECK_READ_REG15 s (BITS sht_oper 8 11))

/-! ## Addressing-mode engine -/

/-- The fifteen single/misc/multiple addressing-mode cases of
`get_calc_addr_op`. -/
inductive AddrMode where
  | lnswoubImmediateOffset
  | lnswoubRegisterOffset
  | lnswoubScaledRegisterOffset
  | lnswoubImmediatePreIndexed
  | lnswoubRegisterPreIndexed
  | lnswoubScaledRegisterPreIndexed
  | lnswoubImmediatePostIndexed
  | lnswoubRegisterPostIndexed
  | lnswoubScaledRegisterPostIndexed
  | mlnsImmediateOffset
  | mlnsRegisterOffset
  | mlnsImmediatePreIndexed
  | mlnsRegisterPreIndexed
  | mlnsImmediatePostIndexed
  | mlnsRegisterPostIndexed
  | ldnstmIncrementAfter
  | ldnstmIncrementBefore
  | ldnstmDecrementAfter
  | ldnstmDecrementBefore
deriving DecidableEq

/-- `get_calc_addr_op`: the order-sensitive selector of the addressing mode
from the raw instruction. -/
def get_calc_addr_op (inst : Nat) : Option AddrMode :=
  if BITS inst 24 27 = 5 ∧ BIT inst 21 = 0 then some .lnswoubImmediateOffset
  else if BITS inst 24 27 = 7 ∧ BIT inst 21 = 0 ∧ BITS inst 4 11 = 0 then
    some .lnswoubRegisterOffset
  else if BITS inst 24 27 = 7 ∧ BIT inst 21 = 0 ∧ BIT inst 4 = 0 then
    some .lnswoubScaledRegisterOffset
  else if BITS inst 24 27 = 5 ∧ BIT inst 21 = 1 then some .lnswoubImmediatePreIndexed
  else if BITS inst 24 27 = 7 ∧ BIT inst 21 = 1 ∧ BITS inst 4 11 = 0 then
    some .lnswoubRegisterPreIndexed
  else if BITS inst 24 27 = 7 ∧ BIT inst 21 = 1 ∧ BIT inst 4 = 0 then
    some .lnswoubScaledRegisterPreIndexed
  else if BITS inst 24 27 = 4 ∧ BIT inst 21 = 0 then some .lnswoubImmediatePostIndexed
  else if BITS inst 24 27 = 6 ∧ BIT inst 21 = 0 ∧ BITS inst 4 11 = 0 then
    some .lnswoubRegisterPostIndexed
  else if BITS inst 24 27 = 6 ∧ BIT inst 21 = 0 ∧ BIT inst 4 = 0 then
    some .lnswoubScaledRegisterPostIndexed
  else if BITS inst 24 27 = 1 ∧ BITS inst 21 22 = 2 ∧ BIT inst 7 = 1 ∧ BIT inst 4 = 1 then
    some .mlnsImmediateOffset
  else if BITS inst 24 27 = 1 ∧ BITS inst 21 22 = 0 ∧ BIT inst 7 = 1 ∧ BIT inst 4 = 1 then
    some .mlnsRegisterOffset
  else if BITS inst 24 27 = 1 ∧ BITS inst 21 22 = 3 ∧ BIT inst 7 = 1 ∧ BIT inst 4 = 1 then
    some .mlnsImmediatePreIndexed
  else if BITS inst 24 27 = 1 ∧ BITS inst 21 22 = 1 ∧ BIT inst 7 = 1 ∧ BIT inst 4 = 1 then
    some .mlnsRegisterPreIndexed
  else if BITS inst 24 27 = 0 ∧ BITS inst 21 22 = 2 ∧ BIT inst 7 = 1 ∧ BIT inst 4 = 1 then
    some .mlnsImmediatePostIndexed
  else if BITS inst 24 27 = 0 ∧ BITS inst 21 22 = 0 ∧ BIT inst 7 = 1 ∧ BIT inst 4 = 1 then
    some .mlnsRegisterPostIndexed
  else if BITS inst 23 27 = 0x11 then some .ldnstmIncrementAfter
  else if BITS inst 23 27 = 0x13 then some .ldnstmIncrementBefore
  else if BITS inst 23 27 = 0x10 then some .ldnstmDecrementAfter
  else if BITS inst 23 27 = 0x12 then some .ldnstmDecrementBefore
  else none

/-- The scaled-register index computation shared by the scaled addressing
modes (the `switch (shift)` block). -/
def scaledIndex (s : ARMulState) (inst rm : Nat) : Nat :=
  let shift := BITS inst 5 6
  let shift_imm := BITS inst 7 11
  if shift = 0 then (rm <<< shift_imm) % 2 ^ 32
  else if shift = 1 then
    (if shift_imm = 0 then 0 else rm % 2 ^ 32 >>> shift_imm)
  else if shift = 2 then
    (if shift_imm = 0 then (if BIT rm 31 = 1 then 0xFFFFFFFF else 0)
     else ASR32 rm shift_imm)
  else
    (if shift_imm = 0 then ((s.CFlag <<< 31) ||| (rm % 2 ^ 32 >>> 1)) % 2 ^ 32
     else ROTATE_RIGHT_32 rm shift_imm)

/-- Population count of the low 16 bits register list (`while (i) ...`). -/
def countSetBits : Nat → Nat
  | 0 => 0
  | n + 1 => ((n + 1) % 2) + countSetBits ((n + 1) / 2)
decreasing_by exact Nat.div_lt_self (Nat.succ_pos n) (by omega)

/-- The addressing-mode engine: given the selected mode, the raw
instruction and the CPU state, produce the virtual address and the
(possibly written-back) state.  Each case mirrors the corresponding
source function. -/
def getAddr (m : AddrMode) (inst : Nat) (s : ARMulState) : Nat × ARMulState :=
  let condOK := CondPassed s (BITS inst 28 31)
  match m with
  | .lnswoubImmediateOffset =>
      let Rn := BITS inst 16 19
      let addr :=
        if BIT inst 23 = 1 then (CHECK_READ_REG15_WA s Rn + BITS inst 0 11) % 2 ^ 32
        else (CHECK_READ_REG15_WA s Rn + 2 ^ 32 - BITS inst 0 11) % 2 ^ 32
      (addr, s)
  | .lnswoubRegisterOffset =>
      let rn := CHECK_READ_REG15_WA s (BITS inst 16 19)
      let rm := CHECK_READ_REG15_WA s (BITS inst 0 3)
      let addr :=
        if BIT inst 23 = 1 then (rn + rm) % 2 ^ 32
        else (rn + 2 ^ 32 - rm % 2 ^ 32) % 2 ^ 32
      (addr, s)
  | .lnswoubScaledRegisterOffset =>
      let rn := CHECK_READ_REG15_WA s (BITS inst 16 19)
      let rm := CHECK_READ_REG15_WA s (BITS inst 0 3)
      let index := scaledIndex s inst rm
      let addr :=
        if BIT inst 23 = 1 then (rn + index) % 2 ^ 32
        else (rn + 2 ^ 32 - index) % 2 ^ 32
      (addr, s)
  | .lnswoubImmediatePreIndexed =>
      let Rn := BITS inst 16 19
      let addr :=
        if BIT inst 23 = 1 then (CHECK_READ_REG15_WA s Rn + BITS inst 0 11) % 2 ^ 32
        else (CHECK_READ_REG15_WA s Rn + 2 ^ 32 - BITS inst 0 11) % 2 ^ 32
      (addr, if condOK then setReg s Rn addr else s)
  | .lnswoubRegisterPreIndexed =>
      let Rn := BITS inst 16 19
      let rn := CHECK_READ_REG15_WA s Rn
      let rm := CHECK_READ_REG15_WA s (BITS inst 0 3)
      let addr :=
        if BIT inst 23 = 1 then (rn + rm) % 2 ^ 32
        else (rn + 2 ^ 32 - rm % 2 ^ 32) % 2 ^ 32
      (addr, if condOK then setReg s Rn addr else s)
  | .lnswoubScaledRegisterPreIndexed =>
      let Rn := BITS inst 16 19
      let rn := CHECK_READ_REG15_WA s Rn
      let rm := CHECK_READ_REG15_WA s (BITS inst 0 3)
      let index := scaledIndex s inst rm
      let addr :=
        if BIT inst 23 = 1 then (rn + index) % 2 ^ 32
        else (rn + 2 ^ 32 - index) % 2 ^ 32
      (addr, if condOK then setReg s Rn addr else s)
  | .lnswoubImmediatePostIndexed =>
      -- NOTE: unlike every sibling, this source function performs the
      -- base-register writeback without consulting the condition code.
      let Rn := BITS inst 16 19
      let addr := CHECK_READ_REG15_WA s Rn
      let wb :=
        if BIT inst 23 = 1 then (s.Reg Rn + BITS inst 0 11) % 2 ^ 32
        else (s.Reg Rn % 2 ^ 32 + 2 ^ 32 - BITS inst 0 11) % 2 ^ 32
      (addr, setReg s Rn wb)
  | .lnswoubRegisterPostIndexed =>
      let Rn := BITS inst 16 19
      let rm := CHECK_READ_REG15_WA s (BITS inst 0 3)
      let addr := CHECK_READ_REG15_WA s Rn
      let wb :=
        if BIT inst 23 = 1 then (s.Reg Rn + rm) % 2 ^ 32
        else (s.Reg Rn % 2 ^ 32 + 2 ^ 32 - rm % 2 ^ 32) % 2 ^ 32
      (addr, if condOK then setReg s Rn wb else s)
  | .lnswoubScaledRegisterPostIndexed =>
      let Rn := BITS inst 16 19
      let rm := CHECK_READ_REG15_WA s (BITS inst 0 3)
      let addr := CHECK_READ_REG15_WA s Rn
      let index := scaledIndex s inst rm
      let wb :=
        if BIT inst 23 = 1 then (s.Reg Rn + index) % 2 ^ 32
        else (s.Reg Rn % 2 ^ 32 + 2 ^ 32 - index) % 2 ^ 32
      (addr, if condOK then setReg s Rn wb else s)
  | .mlnsImmediateOffset =>
      let offset_8 := (BITS inst 8 11 <<< 4) ||| BITS inst 0 3
      let Rn := BITS inst 16 19
      let addr :=
        if BIT inst 23 = 1 then (CHECK_READ_REG15_WA s Rn + offset_8) % 2 ^ 32
        else (CHECK_READ_REG15_WA s Rn + 2 ^ 32 - offset_8) % 2 ^ 32
      (addr, s)
  | .mlnsRegisterOffset =>
      let rn := CHECK_READ_REG15_WA s (BITS inst 16 19)
      let rm := CHECK_READ_REG15_WA s (BITS inst 0 3)
      let addr :=
        if BIT inst 23 = 1 then (rn + rm) % 2 ^ 32
        else (rn + 2 ^ 32 - rm % 2 ^ 32) % 2 ^ 32
      (addr, s)
  | .mlnsImmediatePreIndexed =>
      let Rn := BITS inst 16 19
      let rn := CHECK_READ_REG15_WA s Rn
      let offset_8 := (BITS inst 8 11 <<< 4) ||| BITS inst 0 3
      let addr :=
        if BIT inst 23 = 1 then (rn + offset_8) % 2 ^ 32
        else (rn + 2 ^ 32 - offset_8) % 2 ^ 32
      (addr, if condOK then setReg s Rn addr else s)
  | .mlnsRegisterPreIndexed =>
      let Rn := BITS inst 16 19
      let rn := CHECK_READ_REG15_WA s Rn
      let rm := CHECK_READ_REG15_WA s (BITS inst 0 3)
      let addr :=
        if BIT inst 23 = 1 then (rn + rm) % 2 ^ 32
        else (rn + 2 ^ 32 - rm % 2 ^ 32) % 2 ^ 32
      (addr, if condOK then setReg s Rn addr else s)
  | .mlnsImmediatePostIndexed =>
      let Rn := BITS inst 16 19
      let rn := CHECK_READ_REG15_WA s Rn
      let offset_8 := (BITS inst 8 11 <<< 4) ||| BITS inst 0 3
      let wb :=
        if BIT inst 23 = 1 then (rn + offset_8) % 2 ^ 32
        else (rn + 2 ^ 32 - offset_8) % 2 ^ 32
      (rn, if condOK then setReg s Rn wb else s)
  | .mlnsRegisterPostIndexed =>
      let Rn := BITS inst 16 19
      let rm := CHECK_READ_REG15_WA s (BITS inst 0 3)
      let addr := CHECK_READ_REG15_WA s Rn
      let wb :=
        if BIT inst 23 = 1 then (s.Reg Rn + rm) % 2 ^ 32
        else (s.Reg Rn % 2 ^ 32 + 2 ^ 32 - rm % 2 ^ 32) % 2 ^ 32
      (addr, if condOK then setReg s Rn wb else s)
  | .ldnstmIncrementAfter =>
      let Rn := BITS inst 16 19
      let count := countSetBits (BITS inst 0 15)
      let addr := CHECK_READ_REG15_WA s Rn
      (addr,
       if condOK ∧ BIT inst 21 = 1 then setReg s Rn ((s.Reg Rn + count * 4) % 2 ^ 32)
       else s)
  | .ldnstmIncrementBefore =>
      let Rn := BITS inst 16 19
      let count := countSetBits (BITS inst 0 15)
      let addr := (CHECK_READ_REG15_WA s Rn + 4) % 2 ^ 32
      (addr,
       if condOK ∧ BIT inst 21 = 1 then setReg s Rn ((s.Reg Rn + count * 4) % 2 ^ 32)
       else s)
  | .ldnstmDecrementAfter =>
      let Rn := BITS inst 16 19
      let count := countSetBits (BITS inst 0 15)
      let rn := CHECK_READ_REG15_WA s Rn
      let addr := (rn + 2 ^ 32 - (count * 4) % 2 ^ 32 + 4) % 2 ^ 32
      (addr,
       if condOK ∧ BIT inst 21 = 1 then
         setReg s Rn ((s.Reg Rn % 2 ^ 32 + 2 ^ 32 - (count * 4) % 2 ^ 32) % 2 ^ 32)
       else s)
  | .ldnstmDecrementBefore =>
      let Rn := BITS inst 16 19
      let count := countSetBits (BITS inst 0 15)
      let addr := (CHECK_READ_REG15_WA s Rn + 2 ^ 32 - (count * 4) % 2 ^ 32) % 2 ^ 32
      (addr,
       if condOK ∧ BIT inst 21 = 1 then
         setReg s Rn ((s.Reg Rn % 2 ^ 32 + 2 ^ 32 - (count * 4) % 2 ^ 32) % 2 ^ 32)
       else s)

end Dyncom

namespace Dyncom

/-! ## Arithmetic helpers of armsupp -/

/-- Interpret a 32-bit pattern as a signed integer. -/
def toSigned (x : Nat) : Int :=
  if x % 2 ^ 32 < 2 ^ 31 then (x % 2 ^ 32 : Int) else (x % 2 ^ 32 : Int) - 2 ^ 32

/-- Modelled from the spec: `AddWithCarry` (armsupp, not under src/):
additive ops produce the 32-bit sum, carry = unsigned overflow,
V = signed overflow. -/
def AddWithCarry (l r cin : Nat) : Nat × Bool × Bool :=
  let usum := l % 2 ^ 32 + r % 2 ^ 32 + cin % 2
  let result := usum % 2 ^ 32
  (result, decide (2 ^ 32 ≤ usum),
   decide (toSigned result ≠ toSigned l + toSigned r + (cin % 2 : Nat)))

/-- `POS(x)`: the sign bit of a 32-bit value is clear. -/
def POS (x : Nat) : Bool := BIT x 31 = 0

/-- Modelled from the spec: `AddOverflow` (armsupp, not under src/): signed
overflow indicator of a 32-bit addition. -/
def AddOverflow (a b r : Nat) : Bool :=
  (!POS a && !POS b && POS r) || (POS a && POS b && !POS r)

/-- Modelled from the spec: `SubOverflow` (armsupp, not under src/): signed
overflow indicator of a 32-bit subtraction. -/
def SubOverflow (a b r : Nat) : Bool :=
  (!POS a && POS b && POS r) || (POS a && !POS b && !POS r)

/-! ## Pre-decoded operations and their handlers -/

/-- The operation payloads of the embedded repertoire (the payload structs
trailing the `arm_inst` header). -/
inductive DecodedOp where
  | cmp (Rn sht_oper : Nat) (shtopFunc : ShtopFunc)
  | bbl (L signed_immed_24 : Nat)
  | ldr (inst : Nat) (am : AddrMode)
  | ldrcond (inst : Nat) (am : AddrMode)
  | str (inst : Nat) (am : AddrMode)
  | ldm (inst : Nat) (am : AddrMode)
  | ldrex (Rn Rd : Nat)
  | strex (Rn Rd Rm : Nat)
  | clrex
  | cdp
  | ldc
  | stc
  | swi (num : Nat)
  | msr (R inst : Nat)
  | qaddFamily (op1 Rm Rn Rd : Nat)
deriving DecidableEq

/-- A pre-decoded record: the `arm_inst` header fields that matter to the
dispatch loop (condition code and flow bitset) plus the payload. -/
structure ArmInst where
  cond : Nat
  br : Nat
  op : DecodedOp
deriving DecidableEq

/-- The outcome of one handler: fall through to the next record in the
block, jump back to the dispatch prologue, or return from the loop
(the CDP trap path). -/
inductive ExecResult where
  | next (s : ARMulState)
  | dispatch (s : ARMulState)
  | ret (s : ARMulState)

/-- The state carried by an `ExecResult`. -/
def stateOf : ExecResult → ARMulState
  | .next s => s
  | .dispatch s => s
  | .ret s => s

/-- Is the result the early-return path? -/
def isRet : ExecResult → Bool
  | .ret _ => true
  | _ => false

/-- `cpu->Reg[15] += cpu->GetInstructionSize()`. -/
def advancePC (s : ARMulState) : ARMulState :=
  setReg s 15 ((s.Reg 15 + GetInstructionSize s) % 2 ^ 32)

/-- The LDM register-loading loop: for each listed register in the given
index list, load a word and step the address by 4. -/
def ldmLoop (inst : Nat) : List Nat → ARMulState → Nat → ARMulState × Nat
  | [], s, addr => (s, addr)
  | i :: rest, s, addr =>
      if BIT inst i = 1 then
        ldmLoop inst rest (setReg s i (ReadMemory32 s addr)) ((addr + 4) % 2 ^ 32)
      else ldmLoop inst rest s addr

/-- The first LDM branch (S bit set, PC not listed): registers 0-12 load
normally, R13/R14 load into the user bank outside user mode. -/
def ldmUserBank (inst : Nat) (s : ARMulState) (addr : Nat) : ARMulState :=
  let p1 := ldmLoop inst (List.range 13) s addr
  let p2 :=
    if BIT inst 13 = 1 then
      (if p1.1.Mode = USER32MODE then setReg p1.1 13 (ReadMemory32 p1.1 p1.2)
       else { p1.1 with Reg_usr0 := ReadMemory32 p1.1 p1.2 },
       (p1.2 + 4) % 2 ^ 32)
    else p1
  if BIT inst 14 = 1 then
    (if p2.1.Mode = USER32MODE then setReg p2.1 14 (ReadMemory32 p2.1 p2.2)
     else { p2.1 with Reg_usr1 := ReadMemory32 p2.1 p2.2 })
  else p2.1

/-- The plain LDM branch (S bit clear): load every listed register; a
loaded PC switches to Thumb when bit 0 of the value is set, and bit 0
is cleared. -/
def ldmPlain (inst : Nat) (s : ARMulState) (addr : Nat) : ARMulState :=
  let p1 := ldmLoop inst (List.range 15) s addr
  if BIT inst 15 = 1 then
    let ret := ReadMemory32 p1.1 p1.2
    { setReg p1.1 15 (ret &&& 0xFFFFFFFE) with TFlag := ret &&& 1 }
  else p1.1

/-- The S-bit-with-PC LDM branch: registers 0-14 load normally, CPSR is
restored from SPSR when the mode has one, and the loaded PC is written
to R15 verbatim. -/
def ldmSbitPC (inst : Nat) (s : ARMulState) (addr : Nat) : ARMulState :=
  let p1 := ldmLoop inst (List.range 15) s addr
  let s2 :=
    if CurrentModeHasSPSR p1.1 then
      loadNZCVT (ChangePrivilegeMode { p1.1 with Cpsr := p1.1.Spsr_copy }
        (p1.1.Spsr_copy &&& 0x1F))
    else p1.1
  setReg s2 15 (ReadMemory32 s2 p1.2)

/-- `UserMask` of the MSR handler. -/
def msrUserMask : Nat := 0xF80F0200

/-- `PrivMask` of the MSR handler. -/
def msrPrivMask : Nat := 0x000001DF

/-- `StateMask` of the MSR handler. -/
def msrStateMask : Nat := 0x01000020

/-- One step of the QADD/QSUB/QDADD/QDSUB handler body, after the condition
passed: returns the result value and the updated CPSR. -/
def qaddFamilyCore (op1 rm_val rn_val cpsr : Nat) : Nat × Nat :=
  if op1 = 0 then
    let result := (rm_val % 2 ^ 32 + rn_val % 2 ^ 32) % 2 ^ 32
    if AddOverflow rm_val rn_val result then
      (if POS result then 0x80000000 else 0x7FFFFFFF, cpsr ||| (1 <<< 27))
    else (result, cpsr)
  else if op1 = 1 then
    let result := (rm_val % 2 ^ 32 + 2 ^ 32 - rn_val % 2 ^ 32) % 2 ^ 32
    if SubOverflow rm_val rn_val result then
      (if POS result then 0x80000000 else 0x7FFFFFFF, cpsr ||| (1 <<< 27))
    else (result, cpsr)
  else if op1 = 2 then
    let mul0 := (rn_val % 2 ^ 32 * 2) % 2 ^ 32
    let p :=
      if AddOverflow rn_val rn_val mul0 then
        (if POS mul0 then 0x80000000 else 0x7FFFFFFF, cpsr ||| (1 <<< 27))
      else (mul0, cpsr)
    let result := (p.1 + rm_val % 2 ^ 32) % 2 ^ 32
    if AddOverflow rm_val p.1 result then
      (if POS result then 0x80000000 else 0x7FFFFFFF, p.2 ||| (1 <<< 27))
    else (result, p.2)
  else if op1 = 3 then
    let mul0 := (rn_val % 2 ^ 32 * 2) % 2 ^ 32
    let p :=
      if AddOverflow rn_val rn_val mul0 then
        (if POS mul0 then 0x80000000 else 0x7FFFFFFF, cpsr ||| (1 <<< 27))
      else (mul0, cpsr)
    let result := (rm_val % 2 ^ 32 + 2 ^ 32 - p.1) % 2 ^ 32
    if SubOverflow rm_val p.1 result then
      (if POS result then 0x80000000 else 0x7FFFFFFF, p.2 ||| (1 <<< 27))
    else (result, p.2)
  else (0, cpsr)

/-- Execute one pre-decoded operation, mirroring the corresponding
handler block of `InterpreterMainLoop`. -/
def execInst (r : ArmInst) (s : ARMulState) : ExecResult :=
  let pass := r.cond = 0xE ∨ CondPassed s r.cond
  match r.op with
  | .cmp Rn sht_oper f =>
      if pass then
        let rn_val := (s.Reg Rn + (if Rn = 15 then 2 * GetInstructionSize s else 0)) % 2 ^ 32
        let sh := shtop f s sht_oper
        let s1 := { s with shifter_carry_out := sh.2 }
        let awc := AddWithCarry rn_val (compl32 (sh.1 % 2 ^ 32)) 1
        let s2 := { s1 with
          NFlag := BIT awc.1 31
          ZFlag := if awc.1 = 0 then 1 else 0
          CFlag := if awc.2.1 then 1 else 0
          VFlag := if awc.2.2 then 1 else 0 }
        .next (advancePC s2)
      else .next (advancePC s)
  | .bbl L signed_immed_24 =>
      if pass then
        let s1 := if L ≠ 0 then setReg s 14 ((s.Reg 15 + 4) % 2 ^ 32) else s
        let s2 := setReg s1 15 ((s1.Reg 15 + 8 + signed_immed_24) % 2 ^ 32)
        .dispatch s2
      else .dispatch (advancePC s)
  | .ldr inst am =>
      let ga := getAddr am inst s
      let value := ReadMemory32 ga.2 ga.1
      let Rd := BITS inst 12 15
      let s2 := setReg ga.2 Rd value
      if Rd = 15 then
        let s3 := { setReg s2 15 (s2.Reg 15 &&& 0xFFFFFFFE) with TFlag := value &&& 1 }
        .dispatch s3
      else .next (advancePC s2)
  | .ldrcond inst am =>
      if CondPassed s r.cond then
        let ga := getAddr am inst s
        let value := ReadMemory32 ga.2 ga.1
        let Rd := BITS inst 12 15
        let s2 := setReg ga.2 Rd value
        if Rd = 15 then
          let s3 := { setReg s2 15 (s2.Reg 15 &&& 0xFFFFFFFE) with TFlag := value &&& 1 }
          .dispatch s3
        else .next (advancePC s2)
      else .next (advancePC s)
  | .str inst am =>
      if pass then
        let ga := getAddr am inst s
        let reg := BITS inst 12 15
        let value :=
          (ga.2.Reg reg + (if reg = 15 then 2 * GetInstructionSize ga.2 else 0)) % 2 ^ 32
        .next (advancePC (WriteMemory32 ga.2 ga.1 value))
      else .next (advancePC s)
  | .ldm inst am =>
      if pass then
        let ga := getAddr am inst s
        let s2 :=
          if BIT inst 22 = 1 ∧ BIT inst 15 = 0 then ldmUserBank inst ga.2 ga.1
          else if BIT inst 22 = 0 then ldmPlain inst ga.2 ga.1
          else ldmSbitPC inst ga.2 ga.1
        if BIT inst 15 = 1 then .dispatch s2 else .next (advancePC s2)
      else .next (advancePC s)
  | .ldrex Rn Rd =>
      if pass then
        let read_addr := s.Reg Rn
        let s1 := SetExclusiveMemoryAddress s read_addr
        let s2 := setReg s1 Rd (ReadMemory32 s1 read_addr)
        if Rd = 15 then .dispatch s2 else .next (advancePC s2)
      else .next (advancePC s)
  | .strex Rn Rd Rm =>
      if pass then
        let write_addr := s.Reg Rn
        if IsExclusiveMemoryAccess s write_addr then
          let s1 := UnsetExclusiveMemoryAddress s
          let s2 := WriteMemory32 s1 write_addr (s1.Reg Rm)
          .next (advancePC (setReg s2 Rd 0))
        else .next (advancePC (setReg s Rd 1))
      else .next (advancePC s)
  | .clrex =>
      .next (advancePC (UnsetExclusiveMemoryAddress s))
  | .cdp =>
      if pass then .ret { s with NumInstrsToExecute := 0 }
      else .next (advancePC s)
  | .ldc => .next (advancePC s)
  | .stc => .next (advancePC s)
  | .swi num =>
      if pass then
        .next (advancePC { s with svcCalls := s.svcCalls ++ [num &&& 0xFFFF] })
      else .next (advancePC s)
  | .msr R inst =>
      if pass then
        let operand :=
          if BIT inst 25 = 1 then ROTATE_RIGHT_32 (BITS inst 0 7) (BITS inst 8 11 * 2)
          else s.Reg (BITS inst 0 3)
        let byte_mask :=
          (if BIT inst 16 = 1 then 0xFF else 0) ||| (if BIT inst 17 = 1 then 0xFF00 else 0)
          ||| (if BIT inst 18 = 1 then 0xFF0000 else 0)
          ||| (if BIT inst 19 = 1 then 0xFF000000 else 0)
        if R = 0 then
          let mask :=
            if InAPrivilegedMode s then
              (if operand &&& msrStateMask ≠ 0 then 0
               else byte_mask &&& (msrUserMask ||| msrPrivMask))
            else byte_mask &&& msrUserMask
          let s1 := saveNZCVT s
          let s2 := { s1 with Cpsr := (s1.Cpsr &&& compl32 mask) ||| (operand &&& mask) }
          let s3 := loadNZCVT (ChangePrivilegeMode s2 (s2.Cpsr &&& 0x1F))
          .next (advancePC s3)
        else
          if CurrentModeHasSPSR s then
            let mask := byte_mask &&& (msrUserMask ||| msrPrivMask ||| msrStateMask)
            .next (advancePC
              { s with Spsr_copy := (s.Spsr_copy &&& compl32 mask) ||| (operand &&& mask) })
          else .next (advancePC s)
      else .next (advancePC s)
  | .qaddFamily op1 Rm Rn Rd =>
      if pass then
        let q := qaddFamilyCore op1 (s.Reg Rm) (s.Reg Rn) s.Cpsr
        .next (advancePC (setReg { s with Cpsr := q.2 } Rd q.1))
      else .next (advancePC s)

end Dyncom

namespace Dyncom

/-! ## Budget preservation of the handlers -/

theorem setReg_budget (s : ARMulState) (n v : Nat) :
    (setReg s n v).NumInstrsToExecute = s.NumInstrsToExecute := rfl

theorem advancePC_budget (s : ARMulState) :
    (advancePC s).NumInstrsToExecute = s.NumInstrsToExecute := rfl

theorem getAddr_budget (m : AddrMode) (inst : Nat) (s : ARMulState) :
    ((getAddr m inst s).2).NumInstrsToExecute = s.NumInstrsToExecute := by
  cases m <;> simp only [getAddr] <;> split <;> rfl

theorem ldmLoop_budget (inst : Nat) (l : List Nat) (s : ARMulState) (addr : Nat) :
    ((ldmLoop inst l s addr).1).NumInstrsToExecute = s.NumInstrsToExecute := by
  induction l generalizing s addr with
  | nil => rfl
  | cons i rest ih =>
      simp only [ldmLoop]
      split
      · exact (ih _ _).trans rfl
      · exact ih _ _

theorem ldmUserBank_budget (inst : Nat) (s : ARMulState) (addr : Nat) :
    (ldmUserBank inst s addr).NumInstrsToExecute = s.NumInstrsToExecute := by
  have h1 := ldmLoop_budget inst (List.range 13) s addr
  simp only [ldmUserBank]
  split <;> split <;> (try split) <;> simp_all [setReg]

theorem ldmPlain_budget (inst : Nat) (s : ARMulState) (addr : Nat) :
    (ldmPlain inst s addr).NumInstrsToExecute = s.NumInstrsToExecute := by
  have h1 := ldmLoop_budget inst (List.range 15) s addr
  simp only [ldmPlain]
  split <;> simp_all [setReg]

theorem ldmSbitPC_budget (inst : Nat) (s : ARMulState) (addr : Nat) :
    (ldmSbitPC inst s addr).NumInstrsToExecute = s.NumInstrsToExecute := by
  have h1 := ldmLoop_budget inst (List.range 15) s addr
  simp only [ldmSbitPC]
  split <;> simp_all [setReg, loadNZCVT, ChangePrivilegeMode]

/-- Every handler outcome other than the early-return path leaves the
instruction budget untouched. -/
theorem execInst_budget (r : ArmInst) (s : ARMulState) :
    isRet (execInst r s) = true ∨
      (stateOf (execInst r s)).NumInstrsToExecute = s.NumInstrsToExecute := by
  obtain ⟨c, b, op⟩ := r
  cases op <;>
    simp only [execInst] <;>
    repeat' first
      | split
      | (left; rfl)
      | (right
         simp_all [stateOf, isRet, advancePC, setReg, WriteMemory32, getAddr_budget,
           ldmUserBank_budget, ldmPlain_budget, ldmSbitPC_budget,
           SetExclusiveMemoryAddress, UnsetExclusiveMemoryAddress, saveNZCVT,
           loadNZCVT, ChangePrivilegeMode]
         done)

theorem execInst_budget_next (r : ArmInst) (s s1 : ARMulState)
    (h : execInst r s = .next s1) :
    s1.NumInstrsToExecute = s.NumInstrsToExecute := by
  have h2 := execInst_budget r s
  rw [h] at h2
  simpa [isRet, stateOf] using h2

theorem execInst_budget_dispatch (r : ArmInst) (s s1 : ARMulState)
    (h : execInst r s = .dispatch s1) :
    s1.NumInstrsToExecute = s.NumInstrsToExecute := by
  have h2 := execInst_budget r s
  rw [h] at h2
  simpa [isRet, stateOf] using h2

/-! ## The dispatch loop -/

/-- The PC alignment masking at the `DISPATCH` label. -/
def dispatchMask (s : ARMulState) : ARMulState :=
  if s.TFlag ≠ 0 then setReg s 15 (s.Reg 15 &&& 0xFFFFFFFE)
  else setReg s 15 (s.Reg 15 &&& 0xFFFFFFFC)

theorem dispatchMask_budget (s : ARMulState) :
    (dispatchMask s).NumInstrsToExecute = s.NumInstrsToExecute := by
  unfold dispatchMask; split <;> rfl

/-- The `END` block: mirror the flags into CPSR, zero the budget and
return the executed-instruction count. -/
def endReturn (s : ARMulState) (num : Nat) (tr : List ArmInst) :
    Nat × List ArmInst × ARMulState :=
  (num, tr, { saveNZCVT s with NumInstrsToExecute := 0 })

/-- The dispatch loop of `InterpreterMainLoop`.  `phase = true` models
control at the `DISPATCH` label, `phase = false` control at
`GOTO_NEXT_INST` with the arena offset `ptr` of the next record.  The
arena is abstracted as `prog : Nat → ArmInst` (offset to record),
record sizes as `recSize`, and the block cache (including a successful
translate on miss) as `cache`; a `none` from `cache` models the
`FETCH_EXCEPTION` path.  Alongside the source's `num_instrs` counter the
model accumulates the list of executed records. -/
def interpRun (prog : Nat → ArmInst) (recSize : ArmInst → Nat)
    (cache : Nat → Option Nat) :
    Bool → ARMulState → Nat → Nat → List ArmInst → Nat × List ArmInst × ARMulState
  | true, s, _ptr, num, tr =>
      if s.NirqSig = false ∧ s.Cpsr &&& 0x80 = 0 then endReturn s num tr
      else
        let s1 := dispatchMask s
        match cache (s1.Reg 15) with
        | none => endReturn s1 num tr
        | some p => interpRun prog recSize cache false s1 p num tr
  | false, s, ptr, num, tr =>
      if num ≥ s.NumInstrsToExecute then endReturn s num tr
      else
        let r := prog ptr
        match hr : execInst r s with
        | .ret s1 => (num + 1, tr ++ [r], s1)
        | .dispatch s1 => interpRun prog recSize cache true s1 ptr (num + 1) (tr ++ [r])
        | .next s1 =>
            if r.br ≠ NON_BRANCH then
              interpRun prog recSize cache true s1 ptr (num + 1) (tr ++ [r])
            else
              interpRun prog recSize cache false s1 (ptr + recSize r) (num + 1) (tr ++ [r])
termination_by phase s _ptr num _tr =>
  (s.NumInstrsToExecute - num, if phase then 1 else 0)
decreasing_by
  · rw [dispatchMask_budget]
    apply Prod.Lex.right
    simp
  · apply Prod.Lex.left
    have hb := execInst_budget_dispatch _ _ _ hr
    omega
  · apply Prod.Lex.left
    have hb := execInst_budget_next _ _ _ hr
    omega
  · apply Prod.Lex.left
    have hb := execInst_budget_next _ _ _ hr
    omega

/-- `InterpreterMainLoop`: load the fast-path flags and enter the loop at
`DISPATCH` with `num_instrs = 0`. -/
def InterpreterMainLoop (prog : Nat → ArmInst) (recSize : ArmInst → Nat)
    (cache : Nat → Option Nat) (s : ARMulState) :
    Nat × List ArmInst × ARMulState :=
  interpRun prog recSize cache true (loadNZCVT s) 0 0 []

end Dyncom

namespace Dyncom

/-- Loop invariant of the dispatch loop: starting from `num ≤ budget`, the
returned count never exceeds the budget of the entry state, and it grows
in lock step with the list of executed records. -/
theorem interpRun_invariant (prog : Nat → ArmInst) (recSize : ArmInst → Nat)
    (cache : Nat → Option Nat) :
    ∀ (phase : Bool) (s : ARMulState) (ptr num : Nat) (tr : List ArmInst),
      num ≤ s.NumInstrsToExecute →
      (interpRun prog recSize cache phase s ptr num tr).1 ≤ s.NumInstrsToExecute ∧
      (interpRun prog recSize cache phase s ptr num tr).1 + tr.length =
        (interpRun prog recSize cache phase s ptr num tr).2.1.length + num := by
  intro phase s ptr num tr
  induction phase, s, ptr, num, tr using interpRun.induct prog recSize cache with
  | case1 s ptr num tr hirq =>
      intro hnum
      rw [interpRun.eq_1, if_pos hirq]
      simp [endReturn]
      omega
  | case2 s ptr num tr hirq s1 hcache =>
      intro hnum
      rw [interpRun.eq_1, if_neg hirq]
      simp only [hcache, endReturn]
      constructor
      · omega
      · omega
  | case3 s ptr num tr hirq s1 p hcache ih =>
      intro hnum
      have hs1 : s1 = dispatchMask s := rfl
      have hb : s1.NumInstrsToExecute = s.NumInstrsToExecute := by
        rw [hs1]; exact dispatchMask_budget s
      rw [interpRun.eq_1, if_neg hirq]
      simp only [hcache]
      have h2 := ih (by omega)
      rw [hs1] at h2 hb
      constructor
      · omega
      · omega
  | case4 s ptr num tr hge =>
      intro hnum
      rw [interpRun.eq_2, if_pos hge]
      simp only [endReturn]
      omega
  | case5 s ptr num tr hlt r s1 hret =>
      intro hnum
      have hret2 : execInst (prog ptr) s = ExecResult.ret s1 := hret
      rw [interpRun.eq_2, if_neg hlt]
      dsimp only
      split
      all_goals rename_i s2 heq
      all_goals rw [hret2] at heq
      · injection heq with h
        subst h
        simp only [List.length_append, List.length_cons, List.length_nil]
        omega
      · injection heq
      · injection heq
  | case6 s ptr num tr hlt r s1 hdisp ih =>
      intro hnum
      have hr0 : r = prog ptr := rfl
      have hdisp2 : execInst (prog ptr) s = ExecResult.dispatch s1 := hdisp
      have hb := execInst_budget_dispatch _ _ _ hdisp2
      have h2 := ih (by omega)
      rw [hr0] at h2
      rw [interpRun.eq_2, if_neg hlt]
      dsimp only
      split
      all_goals rename_i s2 heq
      all_goals rw [hdisp2] at heq
      · injection heq
      · injection heq with h
        subst h
        simp only [List.length_append, List.length_cons, List.length_nil] at h2 ⊢
        omega
      · injection heq
  | case7 s ptr num tr hlt r s1 hnext hbr ih =>
      intro hnum
      have hr0 : r = prog ptr := rfl
      have hnext2 : execInst (prog ptr) s = ExecResult.next s1 := hnext
      have hbr2 : (prog ptr).br ≠ NON_BRANCH := hbr
      have hb := execInst_budget_next _ _ _ hnext2
      have h2 := ih (by omega)
      rw [hr0] at h2
      rw [interpRun.eq_2, if_neg hlt]
      dsimp only
      split
      all_goals rename_i s2 heq
      all_goals rw [hnext2] at heq
      · injection heq
      · injection heq
      · injection heq with h
        subst h
        rw [if_pos hbr2]
        simp only [List.length_append, List.length_cons, List.length_nil] at h2 ⊢
        omega
  | case8 s ptr num tr hlt r s1 hnext hbr ih =>
      intro hnum
      have hr0 : r = prog ptr := rfl
      have hnext2 : execInst (prog ptr) s = ExecResult.next s1 := hnext
      have hbr2 : ¬(prog ptr).br ≠ NON_BRANCH := hbr
      have hb := execInst_budget_next _ _ _ hnext2
      have h2 := ih (by omega)
      rw [hr0] at h2
      rw [interpRun.eq_2, if_neg hlt]
      dsimp only
      split
      all_goals rename_i s2 heq
      all_goals rw [hnext2] at heq
      · injection heq
      · injection heq
      · injection heq with h
        subst h
        rw [if_neg hbr2]
        simp only [List.length_append, List.length_cons, List.length_nil] at h2 ⊢
        omega

end Dyncom

namespace Dyncom

/-- A concrete CPU state (supervisor mode, ARM state, three instructions of
budget, no IRQ pending) used to instantiate theorems at concrete inputs. -/
def state0 : ARMulState where
  Reg := fun _ => 0
  Reg_usr0 := 0
  Reg_usr1 := 0
  Cpsr := 0xD3
  Spsr_copy := 0x10
  Mode := 0x13
  NFlag := 0
  ZFlag := 0
  CFlag := 0
  VFlag := 0
  TFlag := 0
  shifter_carry_out := 0
  exclusive_addr := none
  mem := fun _ => 0
  NumInstrsToExecute := 3
  NirqSig := true
  svcCalls := []

/-- A one-record arena holding a `CDP` trap at every offset. -/
def prog0 : Nat → ArmInst := fun _ => ⟨0xE, NON_BRANCH, .cdp⟩

/-- A record-size assignment for `prog0`. -/
def recSize0 : ArmInst → Nat := fun _ => 12

/-- A block cache that never hits (every lookup takes the translate-failure
path). -/
def cache0 : Nat → Option Nat := fun _ => none

/-- C1: for every CPU state whose `NumInstrsToExecute` field is positive,
the dispatch loop executes at most that many guest instructions (the
returned count equals the length of the list of executed records) and on
every return path the count never exceeds the initial budget. -/
theorem C1_mainloop_budget (prog : Nat → ArmInst) (recSize : ArmInst → Nat)
    (cache : Nat → Option Nat) (s : ARMulState)
    (hpos : 0 < s.NumInstrsToExecute) :
    (InterpreterMainLoop prog recSize cache s).1 ≤ s.NumInstrsToExecute ∧
    (InterpreterMainLoop prog recSize cache s).1 =
      (InterpreterMainLoop prog recSize cache s).2.1.length := by
  have hb : (loadNZCVT s).NumInstrsToExecute = s.NumInstrsToExecute := rfl
  have h := interpRun_invariant prog recSize cache true (loadNZCVT s) 0 0 []
    (by omega)
  unfold InterpreterMainLoop
  constructor
  · omega
  · have h2 := h.2
    simp only [List.length_nil] at h2
    omega

/-- Witness for C1 at a concrete state, program and cache. -/
theorem C1_mainloop_budget_witness :
    0 < state0.NumInstrsToExecute ∧
    ((InterpreterMainLoop prog0 recSize0 cache0 state0).1 ≤ state0.NumInstrsToExecute ∧
     (InterpreterMainLoop prog0 recSize0 cache0 state0).1 =
       (InterpreterMainLoop prog0 recSize0 cache0 state0).2.1.length) :=
  ⟨by decide, C1_mainloop_budget prog0 recSize0 cache0 state0 (by decide)⟩

end Dyncom

namespace Dyncom

/-- Modelled from the spec: well-formedness of a pre-decoded record, as
guaranteed by the decoder (arm_dyncom_dec, not under src/): the
unconditional-load tag `ldr` is only assigned to `AL` instructions
(conditional loads get the `ldrcond` tag), and `clrex` only carries its
architecturally fixed `0xF` condition field. -/
def wfInst (r : ArmInst) : Bool :=
  match r.op with
  | .ldr _ _ => r.cond == 0xE
  | .clrex => r.cond == 0xF
  | _ => true

/-- C2: for every embedded operation whose condition code is not `AL`, if
the condition evaluates false against the current flags, the step leaves
every architectural state component other than the program counter
unchanged (the whole state record is `advancePC s`), and the PC advances
by the instruction size. -/
theorem C2_cond_fail_frame (r : ArmInst) (s : ARMulState)
    (hwf : wfInst r = true) (hcond : r.cond ≠ 0xE)
    (hfail : CondPassed s r.cond = false) :
    execInst r s = .next (advancePC s) ∨ execInst r s = .dispatch (advancePC s) := by
  obtain ⟨c, b, op⟩ := r
  simp only [ArmInst.mk.injEq] at hcond hfail hwf ⊢
  cases op with
  | cmp Rn so f => left; simp [execInst, hcond, hfail]
  | bbl L imm => right; simp [execInst, hcond, hfail]
  | ldr inst am =>
      exfalso
      simp only [wfInst] at hwf
      exact hcond (by simpa using hwf)
  | ldrcond inst am => left; simp [execInst, hfail]
  | str inst am => left; simp [execInst, hcond, hfail]
  | ldm inst am => left; simp [execInst, hcond, hfail]
  | ldrex Rn Rd => left; simp [execInst, hcond, hfail]
  | strex Rn Rd Rm => left; simp [execInst, hcond, hfail]
  | clrex =>
      exfalso
      simp only [wfInst] at hwf
      have hc : c = 0xF := by simpa using hwf
      subst hc
      simp [CondPassed] at hfail
  | cdp => left; simp [execInst, hcond, hfail]
  | ldc => left; simp [execInst]
  | stc => left; simp [execInst]
  | swi num => left; simp [execInst, hcond, hfail]
  | msr R inst => left; simp [execInst, hcond, hfail]
  | qaddFamily op1 Rm Rn Rd => left; simp [execInst, hcond, hfail]

/-- Witness for C2: a `CMPNE` record in a state with the Z flag set. -/
theorem C2_cond_fail_frame_witness :
    wfInst ⟨1, NON_BRANCH, .cmp 0 0 .register⟩ = true ∧
    (1 : Nat) ≠ 0xE ∧
    CondPassed { state0 with ZFlag := 1 } 1 = false ∧
    (execInst ⟨1, NON_BRANCH, .cmp 0 0 .register⟩ { state0 with ZFlag := 1 } =
        .next (advancePC { state0 with ZFlag := 1 }) ∨
      execInst ⟨1, NON_BRANCH, .cmp 0 0 .register⟩ { state0 with ZFlag := 1 } =
        .dispatch (advancePC { state0 with ZFlag := 1 })) :=
  ⟨by decide, by decide, by decide,
    C2_cond_fail_frame _ _ (by decide) (by decide) (by decide)⟩

end Dyncom

namespace Dyncom

/-- The state for the C3 counterexample: Z flag set (so condition `NE`
fails), base register R1 = 100. -/
def c3state : ARMulState :=
  { state0 with ZFlag := 1, Reg := fun n => if n = 1 then 100 else 0 }

/-- C3 counterexample: the instruction `0x14810004` (`STRNE R0, [R1], #4`,
condition `NE`, immediate post-indexed, `U = 1`, `Rn = R1`, offset 4)
selects the `LnSWoUB(ImmediatePostIndexed)` addressing mode; in a state
whose Z flag is set the condition fails, yet the addressing-mode engine
still mutates the base register R1 from 100 to 104. -/
theorem C3_counterexample :
    get_calc_addr_op 0x14810004 = some .lnswoubImmediatePostIndexed ∧
    CondPassed c3state (BITS 0x14810004 28 31) = false ∧
    c3state.Reg 1 = 100 ∧
    (getAddr .lnswoubImmediatePostIndexed 0x14810004 c3state).2.Reg 1 = 104 := by
  refine ⟨by decide, by decide, by decide, ?_⟩
  decide

/-- C3 amended: every pre-indexed and post-indexed addressing mode of the
engine except `LnSWoUB(ImmediatePostIndexed)` consults the instruction's
condition code and leaves the state unchanged when it fails;
`LnSWoUB(ImmediatePostIndexed)` (immediate post-indexed single data
transfer) performs the base-register writeback unconditionally. -/
theorem C3_writeback_amended (inst : Nat) (s : ARMulState)
    (hfail : CondPassed s (BITS inst 28 31) = false) :
    ((getAddr .lnswoubImmediatePreIndexed inst s).2 = s ∧
     (getAddr .lnswoubRegisterPreIndexed inst s).2 = s ∧
     (getAddr .lnswoubScaledRegisterPreIndexed inst s).2 = s ∧
     (getAddr .lnswoubRegisterPostIndexed inst s).2 = s ∧
     (getAddr .lnswoubScaledRegisterPostIndexed inst s).2 = s ∧
     (getAddr .mlnsImmediatePreIndexed inst s).2 = s ∧
     (getAddr .mlnsRegisterPreIndexed inst s).2 = s ∧
     (getAddr .mlnsImmediatePostIndexed inst s).2 = s ∧
     (getAddr .mlnsRegisterPostIndexed inst s).2 = s ∧
     (getAddr .ldnstmIncrementAfter inst s).2 = s ∧
     (getAddr .ldnstmIncrementBefore inst s).2 = s ∧
     (getAddr .ldnstmDecrementAfter inst s).2 = s ∧
     (getAddr .ldnstmDecrementBefore inst s).2 = s) ∧
    (getAddr .lnswoubImmediatePostIndexed inst s).2 =
      setReg s (BITS inst 16 19)
        (if BIT inst 23 = 1 then (s.Reg (BITS inst 16 19) + BITS inst 0 11) % 2 ^ 32
         else (s.Reg (BITS inst 16 19) % 2 ^ 32 + 2 ^ 32 - BITS inst 0 11) % 2 ^ 32) := by
  simp [getAddr, hfail]

/-- Witness for C3 amended at the counterexample instruction and state. -/
theorem C3_writeback_amended_witness :
    CondPassed c3state (BITS 0x14810004 28 31) = false ∧
    (getAddr .lnswoubImmediatePreIndexed 0x14810004 c3state).2 = c3state :=
  ⟨by decide, (C3_writeback_amended 0x14810004 c3state (by decide)).1.1⟩

end Dyncom

namespace Dyncom

/-- The `LDREX R0, [R1]` record used for C4. -/
def ldrexRec : ArmInst := ⟨0xE, NON_BRANCH, .ldrex 1 0⟩

/-- The `STREX R2, R3, [R1]` record used for C4. -/
def strexRec : ArmInst := ⟨0xE, NON_BRANCH, .strex 1 2 3⟩

/-- A second `STREX R4, R5, [R1]` record used for C4. -/
def strexRec2 : ArmInst := ⟨0xE, NON_BRANCH, .strex 1 4 5⟩

/-- The `CLREX` record used for C4. -/
def clrexRec : ArmInst := ⟨0xF, NON_BRANCH, .clrex⟩

/-- C4: from any state with the exclusive monitor clear,
`LDREX R0,[R1]; STREX R2,R3,[R1]` with no intervening event yields
`R2 = 0`, writes `memory[R1] = R3` and clears the monitor;
`LDREX; CLREX; STREX` yields `R2 = 1` with memory unchanged; and a second
`STREX` to the same address after a successful one also fails with
`R4 = 1` and memory unchanged. -/
theorem C4_exclusive_roundtrip (s : ARMulState)
    (hmon : s.exclusive_addr = none) :
    (let s1 := stateOf (execInst ldrexRec s)
     let s2 := stateOf (execInst strexRec s1)
     s2.Reg 2 = 0 ∧ s2.mem (s.Reg 1) = s.Reg 3 % 2 ^ 32 ∧
       s2.exclusive_addr = none) ∧
    (let s1 := stateOf (execInst ldrexRec s)
     let sc := stateOf (execInst clrexRec s1)
     let s2 := stateOf (execInst strexRec sc)
     s2.Reg 2 = 1 ∧ s2.mem = s.mem) ∧
    (let s1 := stateOf (execInst ldrexRec s)
     let s2 := stateOf (execInst strexRec s1)
     let s3 := stateOf (execInst strexRec2 s2)
     s3.Reg 4 = 1 ∧ s3.mem = s2.mem) := by
  refine ⟨?_, ?_, ?_⟩ <;>
    simp [execInst, ldrexRec, strexRec, strexRec2, clrexRec, stateOf, advancePC,
      setReg, GetInstructionSize, WriteMemory32, ReadMemory32,
      SetExclusiveMemoryAddress, UnsetExclusiveMemoryAddress,
      IsExclusiveMemoryAccess, Function.update]

/-- Witness for C4 at the concrete base state. -/
theorem C4_exclusive_roundtrip_witness :
    state0.exclusive_addr = none ∧
    (let s1 := stateOf (execInst ldrexRec state0)
     let s2 := stateOf (execInst strexRec s1)
     s2.Reg 2 = 0 ∧ s2.mem (state0.Reg 1) = state0.Reg 3 % 2 ^ 32 ∧
       s2.exclusive_addr = none) :=
  ⟨by decide, (C4_exclusive_roundtrip state0 (by decide)).1⟩

end Dyncom

namespace Dyncom

/-- C5 counterexample: an `LDC` (and an `STC`) whose `AL` condition passes
does not trap: the handler does not return from the loop and leaves the
instruction budget untouched (still 3, not 0), merely advancing the PC. -/
theorem C5_counterexample :
    isRet (execInst ⟨0xE, NON_BRANCH, .ldc⟩ state0) = false ∧
    (stateOf (execInst ⟨0xE, NON_BRANCH, .ldc⟩ state0)).NumInstrsToExecute = 3 ∧
    isRet (execInst ⟨0xE, NON_BRANCH, .stc⟩ state0) = false ∧
    (stateOf (execInst ⟨0xE, NON_BRANCH, .stc⟩ state0)).NumInstrsToExecute = 3 ∧
    (3 : Nat) ≠ 0 := by
  decide

/-- C5 amended: a `CDP` whose condition passes traps as undefined (the
budget is zeroed and the loop returns), while `LDC` and `STC` are
unimplemented no-ops that advance the PC and continue with the next
instruction. -/
theorem C5_reserved_amended (s : ARMulState) (cond br : Nat)
    (hpass : cond = 0xE ∨ CondPassed s cond = true) :
    execInst ⟨cond, br, .cdp⟩ s = .ret { s with NumInstrsToExecute := 0 } ∧
    execInst ⟨cond, br, .ldc⟩ s = .next (advancePC s) ∧
    execInst ⟨cond, br, .stc⟩ s = .next (advancePC s) := by
  refine ⟨?_, rfl, rfl⟩
  simp only [execInst]
  rw [if_pos hpass]

/-- Witness for C5 amended at the concrete base state. -/
theorem C5_reserved_amended_witness :
    ((0xE : Nat) = 0xE ∨ CondPassed state0 0xE = true) ∧
    execInst ⟨0xE, NON_BRANCH, .cdp⟩ state0 =
      .ret { state0 with NumInstrsToExecute := 0 } :=
  ⟨Or.inl rfl, (C5_reserved_amended state0 0xE NON_BRANCH (Or.inl rfl)).1⟩

/-- `INTERPRETER_TRANSLATE(swi)`: the translator stores the full 24-bit
immediate (bits 0-23) in the record payload. -/
def translate_swi (inst : Nat) : ArmInst :=
  ⟨BITS inst 28 31, NON_BRANCH, .swi (BITS inst 0 23)⟩

/-- C6 counterexample: executing `SWI 0x123456` (instruction word
`0xEF123456`) invokes the supervisor-call handler with `0x3456` — the
immediate masked to 16 bits by the handler — not with the full 24-bit
immediate `0x123456`. -/
theorem C6_counterexample :
    BITS 0xEF123456 0 23 = 0x123456 ∧
    (stateOf (execInst (translate_swi 0xEF123456) state0)).svcCalls = [0x3456] ∧
    (0x3456 : Nat) ≠ 0x123456 := by
  decide

/-- C6 amended: for every `SWI` whose condition passes, the external
supervisor-call handler is invoked with the low 16 bits
(`num & 0xFFFF`) of the 24-bit immediate stored by the translator. -/
theorem C6_swi_amended (inst : Nat) (s : ARMulState)
    (hpass : BITS inst 28 31 = 0xE ∨ CondPassed s (BITS inst 28 31) = true) :
    stateOf (execInst (translate_swi inst) s) =
      advancePC { s with svcCalls := s.svcCalls ++ [BITS inst 0 23 &&& 0xFFFF] } := by
  simp only [execInst, translate_swi]
  rw [if_pos hpass]
  rfl

/-- Witness for C6 amended at the concrete instruction `0xEF123456`. -/
theorem C6_swi_amended_witness :
    (BITS 0xEF123456 28 31 = 0xE ∨ CondPassed state0 (BITS 0xEF123456 28 31) = true) ∧
    stateOf (execInst (translate_swi 0xEF123456) state0) =
      advancePC { state0 with svcCalls := state0.svcCalls ++ [BITS 0xEF123456 0 23 &&& 0xFFFF] } :=
  ⟨Or.inl (by decide), C6_swi_amended 0xEF123456 state0 (Or.inl (by decide))⟩

end Dyncom

namespace Dyncom

/-- `BIT` is the indicator of `Nat.testBit`. -/
theorem BIT_eq_one_iff_testBit (x n : Nat) : BIT x n = 1 ↔ x.testBit n = true := by
  rw [Nat.testBit_to_div_mod]
  simp [BIT, Nat.shiftRight_eq_div_pow]

theorem BIT_zero_or_one (x n : Nat) : BIT x n = 0 ∨ BIT x n = 1 := by
  unfold BIT
  omega

/-- Setting any bits by OR can only preserve a set bit 27. -/
theorem BIT27_or (a b : Nat) (h : BIT a 27 = 1) : BIT (a ||| b) 27 = 1 := by
  rw [BIT_eq_one_iff_testBit] at h ⊢
  simp [Nat.testBit_or, h]

/-- The addressing-mode engine never touches the packed CPSR. -/
theorem getAddr_Cpsr (m : AddrMode) (inst : Nat) (s : ARMulState) :
    ((getAddr m inst s).2).Cpsr = s.Cpsr := by
  cases m <;> simp only [getAddr] <;> split <;> rfl

theorem ldmLoop_Cpsr (inst : Nat) (l : List Nat) (s : ARMulState) (addr : Nat) :
    ((ldmLoop inst l s addr).1).Cpsr = s.Cpsr := by
  induction l generalizing s addr with
  | nil => rfl
  | cons i rest ih =>
      simp only [ldmLoop]
      split
      · exact (ih _ _).trans rfl
      · exact ih _ _

theorem ldmLoop_Spsr (inst : Nat) (l : List Nat) (s : ARMulState) (addr : Nat) :
    ((ldmLoop inst l s addr).1).Spsr_copy = s.Spsr_copy := by
  induction l generalizing s addr with
  | nil => rfl
  | cons i rest ih =>
      simp only [ldmLoop]
      split
      · exact (ih _ _).trans rfl
      · exact ih _ _

theorem ldmUserBank_Cpsr (inst : Nat) (s : ARMulState) (addr : Nat) :
    (ldmUserBank inst s addr).Cpsr = s.Cpsr := by
  have h1 := ldmLoop_Cpsr inst (List.range 13) s addr
  simp only [ldmUserBank]
  split <;> split <;> (try split) <;> simp_all [setReg]

theorem ldmPlain_Cpsr (inst : Nat) (s : ARMulState) (addr : Nat) :
    (ldmPlain inst s addr).Cpsr = s.Cpsr := by
  have h1 := ldmLoop_Cpsr inst (List.range 15) s addr
  simp only [ldmPlain]
  split <;> simp_all [setReg]

/-- The saturating-scalar core only ever ORs the Q bit into CPSR: a set
bit 27 stays set. -/
theorem qaddFamilyCore_q (op1 a b cpsr : Nat) (h : BIT cpsr 27 = 1) :
    BIT (qaddFamilyCore op1 a b cpsr).2 27 = 1 := by
  simp only [qaddFamilyCore]
  repeat' split
  all_goals simp_all [BIT27_or]

/-- Is the operation an MSR? -/
def isMsrOp : DecodedOp → Bool
  | .msr _ _ => true
  | _ => false

end Dyncom

namespace Dyncom

/-- C7 amended: among the embedded operations, any step that takes the
sticky Q bit (CPSR bit 27) from 1 to 0 is either an MSR writing CPSR or
an LDM with the S bit set and PC in the register list (whose SPSR
restore overwrites CPSR wholesale); no other operation can clear Q. -/
theorem C7_q_sticky_amended (r : ArmInst) (s : ARMulState)
    (hq : BIT s.Cpsr 27 = 1)
    (hq2 : BIT (stateOf (execInst r s)).Cpsr 27 = 0) :
    (∃ R inst, r.op = .msr R inst) ∨
    (∃ inst am, r.op = .ldm inst am ∧ BIT inst 22 = 1 ∧ BIT inst 15 = 1) := by
  obtain ⟨c, b, op⟩ := r
  cases op
  case msr R inst => exact Or.inl ⟨R, inst, rfl⟩
  case ldm inst am =>
    rcases BIT_zero_or_one inst 22 with h22 | h22
    · exfalso
      revert hq2
      simp only [execInst]
      repeat' split
      all_goals intro hq2
      all_goals
        simp only [stateOf, advancePC, setReg, getAddr_Cpsr, ldmPlain_Cpsr,
          ldmUserBank_Cpsr] at hq2
      all_goals simp_all
      all_goals omega
    · rcases BIT_zero_or_one inst 15 with h15 | h15
      · exfalso
        revert hq2
        simp only [execInst]
        repeat' split
        all_goals intro hq2
        all_goals
          simp only [stateOf, advancePC, setReg, getAddr_Cpsr, ldmPlain_Cpsr,
            ldmUserBank_Cpsr] at hq2
        all_goals simp_all
        all_goals omega
      · exact Or.inr ⟨inst, am, rfl, h22, h15⟩
  case qaddFamily op1 Rm Rn Rd =>
    exfalso
    have hpres := qaddFamilyCore_q op1 (s.Reg Rm) (s.Reg Rn) s.Cpsr hq
    revert hq2
    simp only [execInst]
    split
    all_goals intro hq2
    all_goals simp only [stateOf, advancePC, setReg] at hq2
    all_goals omega
  all_goals
    exfalso
    revert hq2
    simp only [execInst]
    repeat' split
    all_goals intro hq2
    all_goals
      simp only [stateOf, advancePC, setReg, WriteMemory32,
        SetExclusiveMemoryAddress, UnsetExclusiveMemoryAddress,
        getAddr_Cpsr] at hq2
    all_goals omega

end Dyncom

namespace Dyncom

/-- The state for the C7 counterexample: supervisor mode (has an SPSR),
Q bit set in CPSR, SPSR with Q clear. -/
def c7state : ARMulState :=
  { state0 with Cpsr := 0x08000013, Spsr_copy := 0x10, Mode := 0x13 }

/-- The record for the C7 counterexample: `LDMIA R0, {PC}^`
(instruction word `0xE8D08000`: S bit set, PC in the register list). -/
def c7ldm : ArmInst := ⟨0xE, INDIRECT_BRANCH, .ldm 0xE8D08000 .ldnstmIncrementAfter⟩

/-- C7 counterexample: an LDM with the S bit and PC in the register list —
not an MSR — steps the CPU from Q = 1 to Q = 0 by restoring CPSR from
SPSR, so the claim that only MSR can clear the sticky Q bit is false. -/
theorem C7_counterexample :
    get_calc_addr_op 0xE8D08000 = some .ldnstmIncrementAfter ∧
    BIT c7state.Cpsr 27 = 1 ∧
    isMsrOp c7ldm.op = false ∧
    BIT (stateOf (execInst c7ldm c7state)).Cpsr 27 = 0 := by
  decide

/-- Witness for C7 amended at the counterexample step. -/
theorem C7_q_sticky_amended_witness :
    BIT c7state.Cpsr 27 = 1 ∧
    BIT (stateOf (execInst c7ldm c7state)).Cpsr 27 = 0 ∧
    ((∃ R inst, c7ldm.op = .msr R inst) ∨
     (∃ inst am, c7ldm.op = .ldm inst am ∧ BIT inst 22 = 1 ∧ BIT inst 15 = 1)) :=
  ⟨by decide, by decide, C7_q_sticky_amended c7ldm c7state (by decide) (by decide)⟩

end Dyncom

namespace Dyncom

/-- `CACHE_BUFFER_SIZE`: the operation arena capacity. -/
def CACHE_BUFFER_SIZE : Nat := 64 * 1024 * 2000

/-- `AllocBuffer`: bump the arena top by `size` and return the old top as
the allocation offset.  The exhaustion check in the source only logs an
error — `CITRA_IGNORE_EXIT(-1)` expands to nothing — so the allocation
is returned unchanged even when it extends past the arena; the returned
pair is (allocation offset, new top). -/
def AllocBuffer (top size : Nat) : Nat × Nat := (top, top + size)

/-- Does an allocation overflow the arena (the condition of the logged
error)? -/
def allocOverflows (top size : Nat) : Bool := top + size > CACHE_BUFFER_SIZE

/-- C8 evaluation at the failing input: with the arena top 4 bytes below
capacity, a 36-byte allocation trips the exhaustion check, yet
`AllocBuffer` still hands out an allocation that extends past the
arena's bounds and execution continues with it (the top is simply bumped
past the capacity). -/
theorem C8_alloc_overflow_evaluated :
    allocOverflows (CACHE_BUFFER_SIZE - 4) 36 = true ∧
    (AllocBuffer (CACHE_BUFFER_SIZE - 4) 36).1 + 36 > CACHE_BUFFER_SIZE ∧
    (AllocBuffer (CACHE_BUFFER_SIZE - 4) 36).1 = CACHE_BUFFER_SIZE - 4 ∧
    (AllocBuffer (CACHE_BUFFER_SIZE - 4) 36).2 = CACHE_BUFFER_SIZE + 32 := by
  refine ⟨by decide, by decide, rfl, by decide⟩

/-- C9 counterexample: `ASR` by register with shift amount 32 and a
negative `Rm` produces `0xFFFFFFFF`, not 0, and `ROR` by register with
amount 32 returns `Rm` itself, not 0 — refuting "every shift amount ≥ 32
produces a result of 0". -/
theorem C9_counterexample :
    (asrByRegCore 0 0x80000000 32).1 = 0xFFFFFFFF ∧
    (0xFFFFFFFF : Nat) ≠ 0 ∧
    (rorByRegCore 0 0x80000000 32).1 = 0x80000000 ∧
    (0x80000000 : Nat) ≠ 0 := by
  decide

/-- Only the low byte of `rs` enters `BITS rs 0 7`. -/
theorem BITS_low8_mod (rs : Nat) : BITS rs 0 7 = rs % 256 := by
  simp [BITS, Nat.shiftRight_zero]

/-- Only the low five bits of `rs` enter `BITS rs 0 4`. -/
theorem BITS_low5_mod (rs : Nat) : BITS rs 0 4 = rs % 32 := by
  simp [BITS, Nat.shiftRight_zero]

theorem BITS_low8_of_mod (rs : Nat) : BITS (rs % 256) 0 7 = BITS rs 0 7 := by
  rw [BITS_low8_mod, BITS_low8_mod, Nat.mod_mod_of_dvd _ (by norm_num)]

theorem BITS_low5_of_mod (rs : Nat) : BITS (rs % 256) 0 4 = BITS rs 0 4 := by
  rw [BITS_low5_mod, BITS_low5_mod, Nat.mod_mod_of_dvd _ (by norm_num)]

/-- C9 amended: for all four by-register shifts only `Rs[7:0]` matters;
`LSL` and `LSR` produce 0 for amounts ≥ 32 (carry `Rm[0]`/`Rm[31]` at
exactly 32, otherwise 0); `ASR` for amounts ≥ 32 saturates to the
sign-fill of `Rm[31]` (0 or `0xFFFFFFFF`) with carry `Rm[31]`; and `ROR`
uses only `Rs[4:0]`, returning `Rm` unrotated with carry `Rm[31]` when
the amount is a nonzero multiple of 32. -/
theorem C9_shift_by_register_amended :
    (∀ cflag rm rs : Nat,
        lslByRegCore cflag rm rs = lslByRegCore cflag rm (rs % 256) ∧
        lsrByRegCore cflag rm rs = lsrByRegCore cflag rm (rs % 256) ∧
        asrByRegCore cflag rm rs = asrByRegCore cflag rm (rs % 256) ∧
        rorByRegCore cflag rm rs = rorByRegCore cflag rm (rs % 256)) ∧
    (∀ cflag rm rs : Nat, 32 ≤ BITS rs 0 7 →
        lslByRegCore cflag rm rs =
          (0, if BITS rs 0 7 = 32 then BIT rm 0 else 0) ∧
        lsrByRegCore cflag rm rs =
          (0, if BITS rs 0 7 = 32 then BIT rm 31 else 0) ∧
        asrByRegCore cflag rm rs =
          (if BIT rm 31 = 0 then 0 else 0xFFFFFFFF, BIT rm 31)) ∧
    (∀ cflag rm rs : Nat, BITS rs 0 7 ≠ 0 → BITS rs 0 4 = 0 →
        rorByRegCore cflag rm rs = (rm, BIT rm 31)) := by
  refine ⟨?_, ?_, ?_⟩
  · intro cflag rm rs
    refine ⟨?_, ?_, ?_, ?_⟩ <;>
      simp only [lslByRegCore, lsrByRegCore, asrByRegCore, rorByRegCore,
        BITS_low8_of_mod, BITS_low5_of_mod]
  · intro cflag rm rs h
    refine ⟨?_, ?_, ?_⟩ <;>
      simp only [lslByRegCore, lsrByRegCore, asrByRegCore] <;>
      split_ifs <;> first | rfl | omega
  · intro cflag rm rs h1 h2
    simp only [rorByRegCore]
    split_ifs <;> first | rfl | omega

/-- Witness for C9 amended at concrete shift amounts. -/
theorem C9_shift_by_register_amended_witness :
    (32 ≤ BITS 290 0 7 ∧
      asrByRegCore 0 0x80000000 290 =
        (if BIT 0x80000000 31 = 0 then 0 else 0xFFFFFFFF, BIT 0x80000000 31)) ∧
    (BITS 64 0 7 ≠ 0 ∧ BITS 64 0 4 = 0 ∧
      rorByRegCore 0 7 64 = (7, BIT 7 31)) :=
  ⟨⟨by decide, (C9_shift_by_register_amended.2.1 0 0x80000000 290 (by decide)).2.2⟩,
   ⟨by decide, by decide, C9_shift_by_register_amended.2.2 0 7 64 (by decide) (by decide)⟩⟩

end Dyncom

namespace Dyncom

/-- C10: for an LDM with the S bit set and PC in the register list the
handler takes the SPSR-restore path, the loaded PC value is written to
R15 verbatim (bit 0 neither examined nor cleared) and both CPSR and the
Thumb flag come solely from the restored SPSR; on the plain LDM path the
loaded PC has bit 0 masked off and bit 0 becomes the Thumb flag. -/
theorem C10_ldm_sbit_pc_verbatim (inst inst2 : Nat) (am : AddrMode) (br : Nat)
    (s sb sp : ARMulState) (addr addrp : Nat)
    (h22 : BIT inst 22 = 1) (h15 : BIT inst 15 = 1)
    (hspsr : CurrentModeHasSPSR (ldmLoop inst (List.range 15) sb addr).1 = true)
    (h15p : BIT inst2 15 = 1) :
    execInst ⟨0xE, br, .ldm inst am⟩ s =
      .dispatch (ldmSbitPC inst (getAddr am inst s).2 (getAddr am inst s).1) ∧
    ((ldmSbitPC inst sb addr).Reg 15 =
        (ldmLoop inst (List.range 15) sb addr).1.mem
          (ldmLoop inst (List.range 15) sb addr).2 ∧
     (ldmSbitPC inst sb addr).TFlag = (sb.Spsr_copy >>> 5) &&& 1 ∧
     (ldmSbitPC inst sb addr).Cpsr = sb.Spsr_copy) ∧
    ((ldmPlain inst2 sp addrp).Reg 15 =
        ((ldmLoop inst2 (List.range 15) sp addrp).1.mem
          (ldmLoop inst2 (List.range 15) sp addrp).2) &&& 0xFFFFFFFE ∧
     (ldmPlain inst2 sp addrp).TFlag =
        ((ldmLoop inst2 (List.range 15) sp addrp).1.mem
          (ldmLoop inst2 (List.range 15) sp addrp).2) &&& 1) := by
  refine ⟨?_, ?_, ?_⟩
  · simp [execInst, h22, h15]
  · simp [ldmSbitPC, hspsr, setReg, loadNZCVT, ChangePrivilegeMode, ReadMemory32,
      ldmLoop_Spsr, Function.update_same]
  · simp [ldmPlain, h15p, setReg, ReadMemory32, Function.update_same]

/-- Witness for C10 at `LDMIA R0, {PC}^` (`0xE8D08000`) from supervisor
mode and plain `LDMIA R0, {PC}` (`0xE8908000`). -/
theorem C10_ldm_sbit_pc_verbatim_witness :
    (BIT 0xE8D08000 22 = 1 ∧ BIT 0xE8D08000 15 = 1 ∧
     CurrentModeHasSPSR (ldmLoop 0xE8D08000 (List.range 15) c7state 0).1 = true ∧
     BIT 0xE8908000 15 = 1) ∧
    execInst ⟨0xE, INDIRECT_BRANCH, .ldm 0xE8D08000 .ldnstmIncrementAfter⟩ c7state =
      .dispatch (ldmSbitPC 0xE8D08000
        (getAddr .ldnstmIncrementAfter 0xE8D08000 c7state).2
        (getAddr .ldnstmIncrementAfter 0xE8D08000 c7state).1) :=
  ⟨⟨by decide, by decide, by decide, by decide⟩,
   (C10_ldm_sbit_pc_verbatim 0xE8D08000 0xE8908000 .ldnstmIncrementAfter
     INDIRECT_BRANCH c7state c7state state0 0 0
     (by decide) (by decide) (by decide) (by decide)).1⟩

end Dyncom
